import Mathlib

/-!
Verification of the RPG player progression module
(`addons/source-python/plugins/rpg/player.py`).

The class `Player` is embedded as a record of its mutable progression
state (`level`, `xp`, `credits`, `skills`); the engine base class only
supplies player identity and is omitted.  Skills are external objects
referenced by the player's `skills` list; in Python a skill argument is
an object reference, so mutating operations here address a skill by its
index in the list, and `skill in self.skills` becomes "the index is in
range".  Event-manager notifications are modelled by returning the list
of emitted events alongside the new state.  The `while` loop of
`give_xp` is translated with a fuel parameter; fuel `xp + 1` always
suffices because each iteration strictly decreases `xp`
(see `levelUpLoop_le`, which shows the loop condition is false at the
result, i.e. the loop has terminated normally).
-/

namespace Rpg

/-- A skill, as consumed by `player.py`: `class_id`, current `level`
(mutable by the player), optional `max_level`, `upgrade_cost` and
`downgrade_refund`. -/
structure Skill where
  class_id : String
  level : Nat
  max_level : Option Nat
  upgrade_cost : Nat
  downgrade_refund : Nat
deriving DecidableEq, Repr

/-- The RPG progression state of `Player.__init__`: `level`, `xp`,
`credits` (non-negative integers) and the ordered list of skills. -/
structure Player where
  level : Nat
  xp : Nat
  credits : Nat
  skills : List Skill
deriving DecidableEq, Repr

/-- Events sent through the listener managers.  The payload of
`PlayerLevelUp` is `(player, levels, credits)` with the two deltas
computed exactly as in the source (`initial - final`, hence `Int`);
the skill events carry `(player, skill)`. -/
inductive Event where
  | PlayerLevelUp (player : Player) (levels : Int) (credits : Int)
  | PlayerUpgradeSkill (player : Player) (skill : Skill)
  | PlayerDowngradeSkill (player : Player) (skill : Skill)
deriving DecidableEq, Repr

/-- `Player.required_xp`: `300 + 15 * self.level`. -/
def required_xp (p : Player) : Nat :=
  300 + 15 * p.level

/-- The `while self.xp > self.required_xp` loop of `Player.give_xp`,
acting on `(xp, level, credits)`.  Each iteration subtracts
`required_xp` from `xp`, increments `level` and adds `5` credits.
The extra fuel argument makes the recursion structural; any fuel
above the current `xp` is enough (each iteration strictly decreases
`xp`, see `levelUpLoop_le`). -/
def levelUpLoop : Nat → Nat → Nat → Nat → Nat × Nat × Nat
  | 0, xp, level, credits => (xp, level, credits)
  | fuel + 1, xp, level, credits =>
    if 300 + 15 * level < xp then
      levelUpLoop fuel (xp - (300 + 15 * level)) (level + 1) (credits + 5)
    else
      (xp, level, credits)

/-- `Player.give_xp`: raises `ValueError` on a negative amount,
otherwise adds the amount to `xp`, runs the level-up loop, and when
the level increased notifies `OnPlayerLevelUp` with
`levels = initial_level - self.level` and
`credits = initial_credits - self.credits`. -/
def give_xp (amount : Int) (p : Player) : Except String (Player × List Event) :=
  if amount < 0 then
    Except.error ("Negative value " ++ toString amount ++ " passed for give_xp()")
  else
    let xp1 := p.xp + amount.toNat
    let r := levelUpLoop (xp1 + 1) xp1 p.level p.credits
    let p2 : Player := { p with xp := r.1, level := r.2.1, credits := r.2.2 }
    if p.level < p2.level then
      Except.ok (p2, [Event.PlayerLevelUp p2 ((p.level : Int) - p2.level)
        ((p.credits : Int) - p2.credits)])
    else
      Except.ok (p2, [])

/-- `Player.reset_rpg_progress`: zeroes `level`, `xp`, `credits` and the
level of every skill in `skills`; no notification is sent. -/
def reset_rpg_progress (p : Player) : Player × List Event :=
  ({ level := 0, xp := 0, credits := 0,
     skills := p.skills.map (fun skill => { skill with level := 0 }) }, [])

/-- `Player.can_upgrade_skill`: the skill is in `self.skills`, the
player can afford `upgrade_cost`, and `max_level` is `None` or strictly
above the skill's level. -/
def can_upgrade_skill (p : Player) (i : Nat) : Bool :=
  match p.skills[i]? with
  | none => false
  | some skill =>
    decide (skill.upgrade_cost ≤ p.credits) &&
      (match skill.max_level with
       | none => true
       | some m => decide (skill.level < m))

/-- `Player.can_downgrade_skill`: the skill is in `self.skills` and its
level is positive. -/
def can_downgrade_skill (p : Player) (i : Nat) : Bool :=
  match p.skills[i]? with
  | none => false
  | some skill => decide (0 < skill.level)

/-- `Player.upgrade_skill`: returns unchanged if `can_upgrade_skill`
fails, otherwise deducts `upgrade_cost`, increments the skill's level
and notifies `OnPlayerUpgradeSkill`. -/
def upgrade_skill (p : Player) (i : Nat) : Player × List Event :=
  if can_upgrade_skill p i then
    match p.skills[i]? with
    | none => (p, [])
    | some skill =>
      let skill2 := { skill with level := skill.level + 1 }
      let p2 := { p with
        credits := p.credits - skill.upgrade_cost
        skills := p.skills.set i skill2 }
      (p2, [Event.PlayerUpgradeSkill p2 skill2])
  else
    (p, [])

/-- `Player.downgrade_skill`: returns unchanged if `can_downgrade_skill`
fails, otherwise refunds `downgrade_refund`, decrements the skill's
level and notifies `OnPlayerDowngradeSkill`. -/
def downgrade_skill (p : Player) (i : Nat) : Player × List Event :=
  if can_downgrade_skill p i then
    match p.skills[i]? with
    | none => (p, [])
    | some skill =>
      let skill2 := { skill with level := skill.level - 1 }
      let p2 := { p with
        credits := p.credits + skill.downgrade_refund
        skills := p.skills.set i skill2 }
      (p2, [Event.PlayerDowngradeSkill p2 skill2])
  else
    (p, [])

/-- The `for` loop of `Player.execute_skill_callbacks`: each executed
callback is recorded as `(skill, event_name, player, event_args)`. -/
def run_callbacks {α : Type} (pl : Player) (event_name : String) (args : α) :
    List Skill → List (Skill × String × Player × α)
  | [] => []
  | skill :: rest =>
    if 0 < skill.level then
      (skill, event_name, pl, args) :: run_callbacks pl event_name args rest
    else
      run_callbacks pl event_name args rest

/-- `Player.execute_skill_callbacks`: for every skill in `self.skills`
with positive level, execute its callbacks for `event_name`, passing
`player=self` together with the forwarded keyword arguments (modelled
as an opaque value of type `α`). -/
def execute_skill_callbacks {α : Type} (p : Player) (event_name : String) (args : α) :
    List (Skill × String × Player × α) :=
  run_callbacks p event_name args p.skills

/-- `Player.find_skill`: first skill in `self.skills` whose `class_id`
matches, or `None`. -/
def find_skill (p : Player) (skill_id : String) : Option Skill :=
  p.skills.find? (fun skill => skill.class_id == skill_id)

/-- A freshly constructed player: `Player(index)` with the default
`level=0, xp=0, credits=0, skills=[]`. -/
def fresh : Player :=
  { level := 0, xp := 0, credits := 0, skills := [] }

/-- A sample leveled, unbounded skill used as a concrete test input. -/
def sA : Skill :=
  { class_id := "long_jump", level := 1, max_level := none,
    upgrade_cost := 5, downgrade_refund := 4 }

/-- A sample unleveled, bounded skill used as a concrete test input. -/
def sB : Skill :=
  { class_id := "regeneration", level := 0, max_level := some 3,
    upgrade_cost := 5, downgrade_refund := 4 }

/-- A sample player owning `sA` and `sB` with 10 credits. -/
def samp : Player :=
  { level := 2, xp := 10, credits := 10, skills := [sA, sB] }

/-- The level-up loop never ends with `xp` above the threshold: with
enough fuel (any amount above the starting `xp`), the resulting `xp` is
at most `300 + 15 * level` for the resulting `level`.  In particular
fuel `xp + 1` behaves exactly like the unbounded `while` loop of the
source: the loop condition is false at the result. -/
theorem levelUpLoop_le (fuel : Nat) : ∀ xp level credits, xp < fuel →
    (levelUpLoop fuel xp level credits).1 ≤
      300 + 15 * (levelUpLoop fuel xp level credits).2.1 := by
  induction fuel with
  | zero => intro xp level credits h; omega
  | succ n ih =>
    intro xp level credits h
    simp only [levelUpLoop]
    split
    next hc => exact ih _ _ _ (by omega)
    next hc =>
      show xp ≤ 300 + 15 * level
      omega

/-- Whenever `give_xp` succeeds, the resulting state satisfies the
non-strict bound `xp ≤ required_xp`. -/
theorem give_xp_ok_le (p : Player) (amount : Int) (p2 : Player) (evs : List Event)
    (h : give_xp amount p = Except.ok (p2, evs)) : p2.xp ≤ required_xp p2 := by
  by_cases hneg : amount < 0
  · rw [give_xp.eq_def, if_pos hneg] at h
    exact absurd h (by simp)
  · have key := levelUpLoop_le (p.xp + amount.toNat + 1) (p.xp + amount.toNat)
      p.level p.credits (Nat.lt_succ_self _)
    rw [give_xp.eq_def, if_neg hneg] at h
    simp only [] at h
    split at h <;>
    · simp only [Except.ok.injEq, Prod.mk.injEq] at h
      obtain ⟨hp, -⟩ := h
      subst hp
      simpa [required_xp] using key

/-- Claim C1, counterexample: on a fresh player, `give_xp(300)` settles
with `xp = 300 = required_xp(level)`, so the strict bound
`xp < required_xp(level)` does NOT hold after every successful
`give_xp` call. -/
theorem C1_strict_bound_counterexample :
    give_xp 300 fresh =
      Except.ok ({ level := 0, xp := 300, credits := 0, skills := [] }, []) ∧
    ¬ ({ level := 0, xp := 300, credits := 0, skills := [] } : Player).xp <
        required_xp { level := 0, xp := 300, credits := 0, skills := [] } := by
  exact ⟨rfl, by decide⟩

/-- Claim C1, amended: for every state and every amount `≥ 0`, after
`give_xp(amount)` returns successfully the final state satisfies the
NON-strict bound `xp ≤ required_xp(level)`; equality is reachable, so
the strict form fails. -/
theorem C1_nonstrict_after_give_xp (p : Player) (amount : Int) (ha : 0 ≤ amount)
    (p2 : Player) (evs : List Event)
    (h : give_xp amount p = Except.ok (p2, evs)) :
    p2.xp ≤ required_xp p2 :=
  give_xp_ok_le p amount p2 evs h

/-- Witness for `C1_nonstrict_after_give_xp` at `amount = 0` on a fresh
player. -/
theorem C1_nonstrict_witness : Rpg.fresh.xp ≤ required_xp Rpg.fresh :=
  C1_nonstrict_after_give_xp fresh 0 (by decide) fresh [] (by rfl)

/-- Claim C2: the code at the failing input.  `give_xp(301)` on a fresh
player gains exactly 1 level and 5 credits, but the single
`PlayerLevelUp` event carries `levels = -1` and `credits = -5`
(`initial - final`), not the net-positive deltas `+1` and `+5` the
specification requires. -/
theorem C2_payload_sign_eval :
    give_xp 301 fresh =
      Except.ok ({ level := 1, xp := 1, credits := 5, skills := [] },
        [Event.PlayerLevelUp { level := 1, xp := 1, credits := 5, skills := [] }
          (-1) (-5)]) ∧
    ¬ ((-1 : Int) = ((1 : Nat) : Int) - ((0 : Nat) : Int) ∧
       (-5 : Int) = ((5 : Nat) : Int) - ((0 : Nat) : Int)) := by
  exact ⟨rfl, by decide⟩

/-- Claim C3: from a fresh player, `give_xp(300)` causes no level-up
(the loop condition is strict), while `give_xp(301)` yields level 1,
credits 5, xp 1, and fires `PlayerLevelUp` exactly once. -/
theorem C3_threshold_is_strict :
    give_xp 300 fresh =
      Except.ok ({ level := 0, xp := 300, credits := 0, skills := [] }, []) ∧
    give_xp 301 fresh =
      Except.ok ({ level := 1, xp := 1, credits := 5, skills := [] },
        [Event.PlayerLevelUp { level := 1, xp := 1, credits := 5, skills := [] }
          (-1) (-5)]) := by
  exact ⟨rfl, rfl⟩

/-- Claim C4: for every negative amount, `give_xp` fails with the
`ValueError` and produces no successor state at all (the functional
embedding returns only the error, so `level`, `xp` and `credits` are
untouched). -/
theorem C4_negative_amount_error (amount : Int) (p : Player) (h : amount < 0) :
    give_xp amount p =
      Except.error ("Negative value " ++ toString amount ++ " passed for give_xp()") ∧
    ∀ r, ¬ give_xp amount p = Except.ok r := by
  have he : give_xp amount p =
      Except.error ("Negative value " ++ toString amount ++ " passed for give_xp()") := by
    rw [give_xp.eq_def, if_pos h]
  refine ⟨he, ?_⟩
  intro r hr
  rw [he] at hr
  exact Except.noConfusion hr

/-- Witness for `C4_negative_amount_error` at `amount = -1` on a fresh
player. -/
theorem C4_negative_witness :
    give_xp (-1) fresh =
      Except.error ("Negative value " ++ toString (-1 : Int) ++ " passed for give_xp()") ∧
    ∀ r, ¬ give_xp (-1) fresh = Except.ok r :=
  C4_negative_amount_error (-1) fresh (by decide)

/-- Claim C5: from a fresh player, `give_xp(700)` crosses two
thresholds in one call: level rises by exactly 2, credits by exactly
10, and exactly one `PlayerLevelUp` event is emitted for the whole
batch. -/
theorem C5_two_levels_one_event :
    give_xp 700 fresh =
      Except.ok ({ level := 2, xp := 85, credits := 10, skills := [] },
        [Event.PlayerLevelUp { level := 2, xp := 85, credits := 10, skills := [] }
          (-2) (-10)]) := by
  exact rfl

/-- Claim C10: for every starting state with `xp ≤ required_xp(level)`
and every `amount ≥ 0`, a successful `give_xp(amount)` ends with
`xp ≤ required_xp(level)`, and equality is reachable: `give_xp(300)` on
a fresh player settles with `xp` exactly equal to the threshold. -/
theorem C10_nonstrict_invariant (p : Player) (amount : Int)
    (hstart : p.xp ≤ required_xp p) (ha : 0 ≤ amount) :
    (∀ p2 evs, give_xp amount p = Except.ok (p2, evs) → p2.xp ≤ required_xp p2) ∧
    (give_xp 300 fresh =
        Except.ok ({ level := 0, xp := 300, credits := 0, skills := [] }, []) ∧
      required_xp { level := 0, xp := 300, credits := 0, skills := [] } =
        ({ level := 0, xp := 300, credits := 0, skills := [] } : Player).xp) := by
  exact ⟨fun p2 evs h => give_xp_ok_le p amount p2 evs h, rfl, by decide⟩

/-- Witness for `C10_nonstrict_invariant` on a fresh player with
`amount = 300`. -/
theorem C10_nonstrict_witness :
    give_xp 300 fresh =
      Except.ok ({ level := 0, xp := 300, credits := 0, skills := [] }, []) :=
  ((C10_nonstrict_invariant fresh 300 (by decide) (by decide)).2).1

/-- Claim C6: when the preconditions fail, `upgrade_skill` and
`downgrade_skill` are silent no-ops: the player state (credits, xp,
level and every skill) is returned unchanged and no event is
emitted. -/
theorem C6_unmet_precondition_noop (p : Player) (i : Nat) :
    (can_upgrade_skill p i = false → upgrade_skill p i = (p, [])) ∧
    (can_downgrade_skill p i = false → downgrade_skill p i = (p, [])) := by
  constructor
  · intro h
    simp [upgrade_skill, h]
  · intro h
    simp [downgrade_skill, h]

/-- Witness for `C6_unmet_precondition_noop` on a fresh player (no
skills, so index 0 is not a member). -/
theorem C6_noop_witness :
    upgrade_skill fresh 0 = (fresh, []) ∧ downgrade_skill fresh 0 = (fresh, []) :=
  ⟨(C6_unmet_precondition_noop fresh 0).1 rfl,
   (C6_unmet_precondition_noop fresh 0).2 rfl⟩

/-- Evaluation of `upgrade_skill` when the precondition holds. -/
theorem upgrade_skill_eq (p : Player) (i : Nat) (skill : Skill)
    (hmem : p.skills[i]? = some skill) (hcan : can_upgrade_skill p i = true) :
    upgrade_skill p i =
      ({ p with
          credits := p.credits - skill.upgrade_cost
          skills := p.skills.set i { skill with level := skill.level + 1 } },
        [Event.PlayerUpgradeSkill
          { p with
            credits := p.credits - skill.upgrade_cost
            skills := p.skills.set i { skill with level := skill.level + 1 } }
          { skill with level := skill.level + 1 }]) := by
  rw [upgrade_skill.eq_def, hcan, hmem]
  rfl

/-- Evaluation of `downgrade_skill` when the precondition holds. -/
theorem downgrade_skill_eq (p : Player) (i : Nat) (skill : Skill)
    (hmem : p.skills[i]? = some skill) (hpos : 0 < skill.level) :
    downgrade_skill p i =
      ({ p with
          credits := p.credits + skill.downgrade_refund
          skills := p.skills.set i { skill with level := skill.level - 1 } },
        [Event.PlayerDowngradeSkill
          { p with
            credits := p.credits + skill.downgrade_refund
            skills := p.skills.set i { skill with level := skill.level - 1 } }
          { skill with level := skill.level - 1 }]) := by
  have hcd : can_downgrade_skill p i = true := by
    rw [can_downgrade_skill.eq_def, hmem]
    simpa using hpos
  rw [downgrade_skill.eq_def, hcd, hmem]
  rfl

/-- Claim C7: when `can_upgrade_skill` holds, upgrading and then
immediately downgrading the same skill restores the skill (level
included) to its prior value, and the credits drop by exactly
`upgrade_cost - downgrade_refund` net. -/
theorem C7_upgrade_then_downgrade (p : Player) (i : Nat) (skill : Skill)
    (hmem : p.skills[i]? = some skill) (hcan : can_upgrade_skill p i = true) :
    (downgrade_skill (upgrade_skill p i).1 i).1.skills[i]? = some skill ∧
    (p.credits : Int) - ((downgrade_skill (upgrade_skill p i).1 i).1.credits : Int) =
      (skill.upgrade_cost : Int) - (skill.downgrade_refund : Int) := by
  have hlen : i < p.skills.length := (List.getElem?_eq_some.mp hmem).1
  have hcost : skill.upgrade_cost ≤ p.credits := by
    rw [can_upgrade_skill.eq_def, hmem] at hcan
    simp only [Bool.and_eq_true, decide_eq_true_eq] at hcan
    exact hcan.1
  rw [upgrade_skill_eq p i skill hmem hcan]
  have hget1 : ({ p with
      credits := p.credits - skill.upgrade_cost
      skills := p.skills.set i { skill with level := skill.level + 1 } } :
        Player).skills[i]? = some { skill with level := skill.level + 1 } := by
    show (p.skills.set i { skill with level := skill.level + 1 })[i]? = _
    exact List.getElem?_set_self (by simpa using hlen)
  rw [downgrade_skill_eq _ i { skill with level := skill.level + 1 } hget1 (by simp)]
  constructor
  · show ((p.skills.set i _).set i _)[i]? = some skill
    rw [List.set_set]
    have hskill : ({ skill with level := skill.level + 1 - 1 } : Skill) = skill := by
      cases skill
      simp
    simp only [hskill]
    exact List.getElem?_set_self (by simpa using hlen)
  · show (p.credits : Int) - ((p.credits - skill.upgrade_cost + skill.downgrade_refund : Nat) : Int) = _
    omega

/-- Witness for `C7_upgrade_then_downgrade` on the sample player
upgrading and downgrading skill `sA` (index 0). -/
theorem C7_roundtrip_witness :
    (downgrade_skill (upgrade_skill samp 0).1 0).1.skills[0]? = some sA ∧
    (samp.credits : Int) - ((downgrade_skill (upgrade_skill samp 0).1 0).1.credits : Int) =
      (sA.upgrade_cost : Int) - (sA.downgrade_refund : Int) :=
  C7_upgrade_then_downgrade samp 0 sA (by rfl) (by rfl)

/-- Claim C8: `reset_rpg_progress` zeroes `level`, `xp`, `credits` and
every skill's level, emits no event, is idempotent, and afterwards
`find_skill` can only return level-0 skills. -/
theorem C8_reset_progress (p : Player) (sid : String) :
    (reset_rpg_progress p).1.level = 0 ∧
    (reset_rpg_progress p).1.xp = 0 ∧
    (reset_rpg_progress p).1.credits = 0 ∧
    (∀ s ∈ (reset_rpg_progress p).1.skills, s.level = 0) ∧
    (reset_rpg_progress p).2 = [] ∧
    reset_rpg_progress (reset_rpg_progress p).1 = reset_rpg_progress p ∧
    (∀ s, find_skill (reset_rpg_progress p).1 sid = some s → s.level = 0) := by
  refine ⟨rfl, rfl, rfl, ?_, rfl, ?_, ?_⟩
  · intro s hs
    simp only [reset_rpg_progress, List.mem_map] at hs
    obtain ⟨a, -, ha⟩ := hs
    rw [← ha]
  · have h2 : ∀ l : List Skill,
        List.map (fun skill => ({ skill with level := 0 } : Skill))
          (List.map (fun skill => ({ skill with level := 0 } : Skill)) l) =
        List.map (fun skill => ({ skill with level := 0 } : Skill)) l := by
      intro l
      induction l with
      | nil => rfl
      | cons a t ih =>
        simp only [List.map_cons, ih]
    simp only [reset_rpg_progress]
    rw [h2 p.skills]
  · intro s hfind
    simp only [find_skill] at hfind
    have hmem := List.mem_of_find?_eq_some hfind
    simp only [reset_rpg_progress, List.mem_map] at hmem
    obtain ⟨a, -, ha⟩ := hmem
    rw [← ha]

/-- Witness for `C8_reset_progress` on the sample player, looking up
the previously leveled skill `sA` after the reset. -/
theorem C8_reset_witness :
    (reset_rpg_progress samp).1.credits = 0 ∧
    ({ class_id := "long_jump", level := 0, max_level := none,
       upgrade_cost := 5, downgrade_refund := 4 } : Skill).level = 0 :=
  ⟨(C8_reset_progress samp "long_jump").2.2.1,
   (C8_reset_progress samp "long_jump").2.2.2.2.2.2 _ (by rfl)⟩

/-- The callback loop is exactly a filter on positive level followed by
the call construction, in list order. -/
theorem run_callbacks_eq_filter {α : Type} (pl : Player) (en : String) (args : α)
    (l : List Skill) :
    run_callbacks pl en args l =
      (l.filter (fun s => decide (0 < s.level))).map (fun s => (s, en, pl, args)) := by
  induction l with
  | nil => rfl
  | cons skill rest ih =>
    by_cases h : 0 < skill.level
    · simp [run_callbacks, List.filter_cons, h, ih]
    · simp [run_callbacks, List.filter_cons, h, ih]

/-- Claim C9: `execute_skill_callbacks` performs exactly the calls of
the skills with positive level, in the order of the `skills` list, each
passing the owning player and the forwarded event arguments; it never
calls a skill at level 0. -/
theorem C9_callbacks_only_leveled {α : Type} (p : Player) (en : String) (args : α) :
    execute_skill_callbacks p en args =
      (p.skills.filter (fun s => decide (0 < s.level))).map (fun s => (s, en, p, args)) ∧
    ∀ c ∈ execute_skill_callbacks p en args, 0 < c.1.level := by
  have he := run_callbacks_eq_filter p en args p.skills
  refine ⟨he, ?_⟩
  intro c hc
  simp only [execute_skill_callbacks] at hc
  rw [he] at hc
  simp only [List.mem_map] at hc
  obtain ⟨s, hs, hcs⟩ := hc
  rw [← hcs]
  simpa using (List.mem_filter.mp hs).2

/-- Witness for `C9_callbacks_only_leveled` on the sample player: only
the leveled skill `sA` is called, the level-0 skill `sB` is skipped. -/
theorem C9_callbacks_witness :
    execute_skill_callbacks samp "player_jump" (0 : Nat) =
      [(sA, "player_jump", samp, (0 : Nat))] :=
  ((C9_callbacks_only_leveled samp "player_jump" (0 : Nat)).1).trans (by rfl)

end Rpg
